import Mathlib

/-!
Verification of the Pi-Zero-W air-quality monitor (`air_monitor.py`).

The embedding models the program's data path: the reading record built by
`read_sensors_once`, the AQI bucketing of `aqi_category_from_pm25`, the
in-memory history store mutated inside `sensor_loop` under `history_lock`
(append, set `last_row`, evict by timestamp cutoff), and the two JSON
endpoints `api_data` and `api_history`.  Python floats are modelled as
rationals; timestamps are rationals; values the sensor may omit are
`Option` values.
-/

namespace AirMonitor

/-- `HISTORY_SECONDS = 15 * 60`: the in-memory retention window, seconds. -/
def HISTORY_SECONDS : ℚ := 15 * 60

/-- `READ_INTERVAL_SEC = 5`: the poll period, seconds. -/
def READ_INTERVAL_SEC : ℚ := 5

/-- One sensor sample, the dict built by `read_sensors_once`:
`{ts, temp_c, temp_f, humidity, pm1, pm25, pm10, aqi_category}`. -/
structure Reading where
  ts : ℚ
  temp_c : ℚ
  temp_f : ℚ
  humidity : ℚ
  pm1 : Option ℚ
  pm25 : Option ℚ
  pm10 : Option ℚ
  aqi_category : String
deriving DecidableEq, Repr

/-- `aqi_category_from_pm25`: AQI bucket from PM2.5 (µg/m³), `None → "Unknown"`,
then inclusive upper bounds 12.0 / 35.4 / 55.4 / 150.4 / 250.4. -/
def aqi_category_from_pm25 (pm25_value : Option ℚ) : String :=
  match pm25_value with
  | none => "Unknown"
  | some v =>
    if v ≤ 12 then "Good"
    else if v ≤ 35.4 then "Moderate"
    else if v ≤ 55.4 then "Unhealthy for Sensitive Groups"
    else if v ≤ 150.4 then "Unhealthy"
    else if v ≤ 250.4 then "Very Unhealthy"
    else "Hazardous"

/-- Python's `round` ties-to-even on an exact rational value. -/
def roundHalfEven (x : ℚ) : ℤ :=
  let f := Int.floor x
  let frac := x - f
  if frac < 1/2 then f
  else if 1/2 < frac then f + 1
  else if f % 2 = 0 then f else f + 1

/-- `round(x, 1)`: one decimal place. -/
def round1 (x : ℚ) : ℚ := (roundHalfEven (x * 10) : ℚ) / 10

/-- The raw values a single successful sensor pass yields: AHT20 temperature
and humidity, PMSA003I standard concentrations (each possibly absent). -/
structure RawSample where
  temp_c : ℚ
  humidity : ℚ
  pm1 : Option ℚ
  pm25 : Option ℚ
  pm10 : Option ℚ
deriving DecidableEq, Repr

/-- `read_sensors_once` on a successful pass: derive Fahrenheit
(`temp_f = temp_c * 9 / 5 + 32`), round temperatures and humidity to one
decimal, derive the AQI category from PM2.5. -/
def read_sensors_once (ts : ℚ) (raw : RawSample) : Reading :=
  let temp_f := raw.temp_c * 9 / 5 + 32
  { ts := ts
    temp_c := round1 raw.temp_c
    temp_f := round1 temp_f
    humidity := round1 raw.humidity
    pm1 := raw.pm1
    pm25 := raw.pm25
    pm10 := raw.pm10
    aqi_category := aqi_category_from_pm25 raw.pm25 }

/-- The shared in-memory state of `air_monitor.py`: the module-level
`history` list and `last_row` reference, both guarded by `history_lock`. -/
structure Store where
  history : List Reading
  last_row : Option Reading
deriving DecidableEq, Repr

/-- The state at process start: empty history, no last row. -/
def initStore : Store := { history := [], last_row := none }

/-- The critical section of `sensor_loop` on a successful read, with window
length `W` (`HISTORY_SECONDS` in the source): append `row` to `history`, set
`last_row`, then keep only entries with `ts >= row.ts - W`. -/
def record (W : ℚ) (s : Store) (row : Reading) : Store :=
  let appended := s.history ++ [row]
  let cutoff := row.ts - W
  { history := appended.filter (fun r => decide (cutoff ≤ r.ts))
    last_row := some row }

/-- A whole sequence of successful loop iterations applied in order. -/
def recordAll (W : ℚ) (rows : List Reading) (s : Store) : Store :=
  rows.foldl (record W) s

/-- What `api_history` reads under the lock: the full window contents. -/
def snapshot_history (s : Store) : List Reading := s.history

/-- What `api_data` reads under the lock: the `last_row` reference. -/
def snapshot_latest (s : Store) : Option Reading := s.last_row

/-- A placeholder reading carrying only a timestamp, used for concrete test
points (the window logic never inspects the other fields). -/
def tsOnly (t : ℚ) : Reading :=
  { ts := t, temp_c := 0, temp_f := 32, humidity := 0,
    pm1 := none, pm25 := none, pm10 := none, aqi_category := "Unknown" }

end AirMonitor

namespace AirMonitor

lemma recordAll_append (W : ℚ) (rows : List Reading) (r : Reading) (s : Store) :
    recordAll W (rows ++ [r]) s = record W (recordAll W rows s) r := by
  simp [recordAll, List.foldl_append]

lemma record_history (W : ℚ) (s : Store) (r : Reading) :
    (record W s r).history
      = (s.history ++ [r]).filter (fun x => decide (r.ts - W ≤ x.ts)) := rfl

lemma record_last_row (W : ℚ) (s : Store) (r : Reading) :
    (record W s r).last_row = some r := rfl

/-- On a timestamp-sorted input sequence the repeated per-insert filters
collapse to one filter at the final cutoff. -/
lemma recordAll_history_sorted (W : ℚ) (l : List Reading) :
    ∀ (hne : l ≠ []), l.Chain' (fun a b => a.ts ≤ b.ts) →
      (recordAll W l initStore).history
        = l.filter (fun x => decide ((l.getLast hne).ts - W ≤ x.ts)) := by
  induction l using List.reverseRecOn with
  | nil => intro hne; exact absurd rfl hne
  | append_singleton l' r ih =>
    intro hne hch
    have hglast : (l' ++ [r]).getLast hne = r := by simp [List.getLast_append]
    rw [recordAll_append, record_history, hglast]
    rcases List.chain'_append.mp hch with ⟨hch', _, hlast⟩
    rcases eq_or_ne l' [] with h0 | hne'
    · subst h0; rfl
    · have hmem : l'.getLast hne' ∈ l'.getLast? := by
        simp [List.getLast?_eq_getLast l' hne']
      have hts : (l'.getLast hne').ts ≤ r.ts := hlast _ hmem r (by simp)
      rw [ih hne' hch', List.filter_append, List.filter_filter, List.filter_append]
      congr 1
      apply List.filter_congr
      intro x _
      by_cases hx : r.ts - W ≤ x.ts
      · have hx' : (l'.getLast hne').ts - W ≤ x.ts := by linarith
        simp [hx, hx']
      · simp [hx]

/-- Claim C1: starting from an empty store, after `record` calls with
strictly increasing timestamps ending at `r`, the snapshot of the window is
exactly the recorded readings with timestamp `≥ r.ts − W`, boundary kept,
in original insertion order. -/
theorem snapshot_history_after_increasing_records (W : ℚ)
    (rows : List Reading) (r : Reading)
    (hinc : (rows ++ [r]).Chain' (fun a b => a.ts < b.ts)) :
    snapshot_history (recordAll W (rows ++ [r]) initStore)
      = (rows ++ [r]).filter (fun x => decide (r.ts - W ≤ x.ts)) := by
  have hle : (rows ++ [r]).Chain' (fun a b => a.ts ≤ b.ts) :=
    hinc.imp (fun a b h => le_of_lt h)
  have hne : rows ++ [r] ≠ [] := by simp
  have hglast : (rows ++ [r]).getLast hne = r := by simp [List.getLast_append]
  rw [snapshot_history, recordAll_history_sorted W _ hne hle, hglast]

/-- Witness for C1: the spec's worked example, `W = 900`, records at
t = 0, 300, 600, 900, 1200; the window keeps exactly t = 300..1200. -/
theorem snapshot_history_after_increasing_records_witness :
    ([tsOnly 0, tsOnly 300, tsOnly 600, tsOnly 900] ++ [tsOnly 1200]).Chain'
        (fun a b => a.ts < b.ts) ∧
    snapshot_history (recordAll HISTORY_SECONDS
        ([tsOnly 0, tsOnly 300, tsOnly 600, tsOnly 900] ++ [tsOnly 1200]) initStore)
      = [tsOnly 300, tsOnly 600, tsOnly 900, tsOnly 1200] := by
  have hch : ([tsOnly 0, tsOnly 300, tsOnly 600, tsOnly 900] ++ [tsOnly 1200]).Chain'
      (fun a b => a.ts < b.ts) := by
    norm_num [List.chain'_cons, List.chain'_singleton, tsOnly]
  refine ⟨hch, ?_⟩
  rw [snapshot_history_after_increasing_records HISTORY_SECONDS _ _ hch]
  norm_num [List.filter_cons, tsOnly, HISTORY_SECONDS]

/-- Claim C2: after any `record` call on any prior state, the window holds
exactly the entries (old ones and the new row) whose timestamp is at least
the new row's timestamp minus the window length, and the new row is the
last-inserted element (`last_row`). -/
theorem record_window_invariant (W : ℚ) (s : Store) (r x : Reading) :
    (x ∈ (record W s r).history ↔ (x ∈ s.history ∨ x = r) ∧ r.ts - W ≤ x.ts)
    ∧ (record W s r).last_row = some r := by
  refine ⟨?_, rfl⟩
  rw [record_history, List.mem_filter]
  simp [List.mem_append, decide_eq_true_eq]

lemma filter_singleton_pass (W : ℚ) (hW : 0 ≤ W) (r : Reading) :
    [r].filter (fun x => decide (r.ts - W ≤ x.ts)) = [r] := by
  have hr : r.ts - W ≤ r.ts := by linarith
  simp [List.filter_singleton, hr, hW]

lemma record_history_concat (W : ℚ) (hW : 0 ≤ W) (s : Store) (r : Reading) :
    (record W s r).history
      = s.history.filter (fun x => decide (r.ts - W ≤ x.ts)) ++ [r] := by
  rw [record_history, List.filter_append, filter_singleton_pass W hW]

/-- Claim C3: after any `record`, `last_row` is the recorded reading, the
window is non-empty and its last element is that reading; `last_row` is
empty only at the initial state, and after any non-empty run of `record`
calls `snapshot_latest` is the last reading recorded. -/
theorem latest_equals_last_of_window (W : ℚ) (hW : 0 ≤ W) :
    (∀ s r, (record W s r).last_row = some r ∧
       (record W s r).history.getLast? = some r ∧
       (record W s r).history ≠ []) ∧
    snapshot_latest initStore = none ∧
    (∀ (rows : List Reading) (r : Reading),
      snapshot_latest (recordAll W (rows ++ [r]) initStore) = some r) := by
  refine ⟨fun s r => ?_, rfl, fun rows r => ?_⟩
  · rw [record_history_concat W hW]
    exact ⟨rfl, List.getLast?_concat _, by simp⟩
  · rw [recordAll_append]
    rfl

/-- Witness for C3 at `W = 900` with records at t = 5, 10, 20. -/
theorem latest_equals_last_of_window_witness :
    (0 : ℚ) ≤ HISTORY_SECONDS ∧
    (record HISTORY_SECONDS initStore (tsOnly 5)).last_row = some (tsOnly 5) ∧
    snapshot_latest (recordAll HISTORY_SECONDS
        ([tsOnly 5, tsOnly 10] ++ [tsOnly 20]) initStore) = some (tsOnly 20) := by
  have hW : (0 : ℚ) ≤ HISTORY_SECONDS := by norm_num [HISTORY_SECONDS]
  exact ⟨hW,
    ((latest_equals_last_of_window HISTORY_SECONDS hW).1 initStore (tsOnly 5)).1,
    (latest_equals_last_of_window HISTORY_SECONDS hW).2.2
      [tsOnly 5, tsOnly 10] (tsOnly 20)⟩

/-- Claim C5 as stated fails on the code: with out-of-order timestamps the
eviction is not a prefix trim.  Record t = 1000 then t = 50 (both kept,
window `[1000, 50]`), then record t = 960: the cutoff is 60, so the middle
entry t = 50 is evicted while the older entry t = 1000 survives.  The post
window `[1000, 960]` is not a suffix of `[1000, 50] ++ [960]`. -/
theorem eviction_not_prefix_trim_counterexample :
    ¬ ((record HISTORY_SECONDS
          (recordAll HISTORY_SECONDS [tsOnly 1000, tsOnly 50] initStore)
          (tsOnly 960)).history
        <:+ ((recordAll HISTORY_SECONDS [tsOnly 1000, tsOnly 50] initStore).history
              ++ [tsOnly 960])) := by
  have h1 : (recordAll HISTORY_SECONDS [tsOnly 1000, tsOnly 50] initStore).history
      = [tsOnly 1000, tsOnly 50] := by
    norm_num [recordAll, record, initStore, List.filter_cons, tsOnly, HISTORY_SECONDS]
  have h2 : (record HISTORY_SECONDS
      (recordAll HISTORY_SECONDS [tsOnly 1000, tsOnly 50] initStore)
      (tsOnly 960)).history = [tsOnly 1000, tsOnly 960] := by
    rw [record_history, h1]
    norm_num [List.filter_cons, tsOnly, HISTORY_SECONDS]
  rw [h2, h1, List.suffix_iff_eq_drop]
  intro h
  norm_num [tsOnly] at h

lemma filter_isSuffix_of_sorted (c : ℚ) :
    ∀ (l : List Reading), l.Pairwise (fun a b => a.ts ≤ b.ts) →
      (l.filter (fun x => decide (c ≤ x.ts))) <:+ l := by
  intro l
  induction l with
  | nil => intro _; simp
  | cons a t ih =>
    intro h
    rw [List.pairwise_cons] at h
    by_cases hc : c ≤ a.ts
    · have hall : t.filter (fun x => decide (c ≤ x.ts)) = t :=
        List.filter_eq_self.mpr
          (fun x hx => decide_eq_true (le_trans hc (h.1 x hx)))
      rw [List.filter_cons, if_pos (decide_eq_true hc), hall]
    · rw [List.filter_cons, if_neg (by simp [hc])]
      exact (ih h.2).trans (List.suffix_cons a t)

/-- Claim C5 amended: eviction happens only inside `record` and removes
exactly the entries with timestamp below the cutoff, preserving the
relative order of survivors (the post window is a sublist of the prior
window with the new reading appended); when the prior window's timestamps
are nondecreasing — as under the spec's monotone-clock assumption — the
removal is a contiguous prefix trim, i.e. the post window is a suffix. -/
theorem eviction_is_order_preserving_filter (W : ℚ) (s : Store) (r : Reading)
    (hW : 0 ≤ W) :
    ((record W s r).history).Sublist (s.history ++ [r]) ∧
    (record W s r).history
      = (s.history ++ [r]).filter (fun x => decide (r.ts - W ≤ x.ts)) ∧
    (s.history.Pairwise (fun a b => a.ts ≤ b.ts) →
      (record W s r).history <:+ (s.history ++ [r])) := by
  refine ⟨?_, record_history W s r, ?_⟩
  · rw [record_history]; exact List.filter_sublist _
  · intro hsort
    rw [record_history_concat W hW]
    obtain ⟨t, ht⟩ := filter_isSuffix_of_sorted (r.ts - W) s.history hsort
    exact ⟨t, by rw [← List.append_assoc, ht]⟩

/-- Witness for C5's amended claim: sorted prior window t = 0, 300, new
reading t = 600, `W = 900`. -/
theorem eviction_is_order_preserving_filter_witness :
    (0 : ℚ) ≤ HISTORY_SECONDS ∧
    ([tsOnly 0, tsOnly 300] : List Reading).Pairwise (fun a b => a.ts ≤ b.ts) ∧
    (record HISTORY_SECONDS
        { history := [tsOnly 0, tsOnly 300], last_row := some (tsOnly 300) }
        (tsOnly 600)).history
      <:+ ([tsOnly 0, tsOnly 300] ++ [tsOnly 600]) := by
  have hW : (0 : ℚ) ≤ HISTORY_SECONDS := by norm_num [HISTORY_SECONDS]
  have hsort : ([tsOnly 0, tsOnly 300] : List Reading).Pairwise
      (fun a b => a.ts ≤ b.ts) := by
    norm_num [List.pairwise_cons, tsOnly]
  exact ⟨hW, hsort,
    (eviction_is_order_preserving_filter HISTORY_SECONDS
      { history := [tsOnly 0, tsOnly 300], last_row := some (tsOnly 300) }
      (tsOnly 600) hW).2.2 hsort⟩

/-- Claim C4: the AQI category is a pure function of PM2.5 with inclusive
upper bounds: `≤ 12 → Good`, `≤ 35.4 → Moderate`, `≤ 55.4 → USG`,
`≤ 150.4 → Unhealthy`, `≤ 250.4 → Very Unhealthy`, `> 250.4 → Hazardous`,
and an absent PM2.5 maps to `"Unknown"`. -/
theorem aqi_category_matches_breakpoint_table :
    aqi_category_from_pm25 none = "Unknown" ∧
    ∀ v : ℚ,
      (v ≤ 12 → aqi_category_from_pm25 (some v) = "Good") ∧
      (12 < v → v ≤ 35.4 → aqi_category_from_pm25 (some v) = "Moderate") ∧
      (35.4 < v → v ≤ 55.4 →
        aqi_category_from_pm25 (some v) = "Unhealthy for Sensitive Groups") ∧
      (55.4 < v → v ≤ 150.4 → aqi_category_from_pm25 (some v) = "Unhealthy") ∧
      (150.4 < v → v ≤ 250.4 →
        aqi_category_from_pm25 (some v) = "Very Unhealthy") ∧
      (250.4 < v → aqi_category_from_pm25 (some v) = "Hazardous") := by
  refine ⟨rfl, fun v => ?_⟩
  simp only [aqi_category_from_pm25]
  refine ⟨fun h => ?_, fun h1 h2 => ?_, fun h1 h2 => ?_, fun h1 h2 => ?_,
    fun h1 h2 => ?_, fun h1 => ?_⟩ <;>
    split_ifs <;> first | rfl | (exfalso; linarith)

/-- Witness for C4 at the table boundaries 12.0, 12.1, 35.4 and 35.5. -/
theorem aqi_category_matches_breakpoint_table_witness :
    aqi_category_from_pm25 (some 12) = "Good" ∧
    aqi_category_from_pm25 (some 12.1) = "Moderate" ∧
    aqi_category_from_pm25 (some 35.4) = "Moderate" ∧
    aqi_category_from_pm25 (some 35.5) = "Unhealthy for Sensitive Groups" := by
  have h := aqi_category_matches_breakpoint_table
  exact ⟨(h.2 12).1 le_rfl,
    (h.2 12.1).2.1 (by norm_num) (by norm_num),
    (h.2 35.4).2.1 (by norm_num) le_rfl,
    (h.2 35.5).2.2.1 (by norm_num) (by norm_num)⟩

/-- Claim C9: `read_sensors_once` derives Fahrenheit as
`temp_c * 9 / 5 + 32`, rounds `temp_c`, `temp_f` and `humidity` to one
decimal, and is deterministic in the raw values; on the spec's example
(temp_c = 22.0, humidity = 45.0, pm25 = 10.0) it yields temp_f = 71.6,
humidity = 45.0, pm25 = 10.0 and category "Good". -/
theorem reading_derivation_formula_and_example (ts ts2 : ℚ) (raw : RawSample) :
    ((read_sensors_once ts raw).temp_c = round1 raw.temp_c ∧
     (read_sensors_once ts raw).temp_f = round1 (raw.temp_c * 9 / 5 + 32) ∧
     (read_sensors_once ts raw).humidity = round1 raw.humidity ∧
     (read_sensors_once ts raw).aqi_category = aqi_category_from_pm25 raw.pm25) ∧
    ((read_sensors_once ts raw).temp_f = (read_sensors_once ts2 raw).temp_f ∧
     (read_sensors_once ts raw).aqi_category
       = (read_sensors_once ts2 raw).aqi_category) ∧
    ((read_sensors_once 0
        { temp_c := 22, humidity := 45,
          pm1 := none, pm25 := some 10, pm10 := none }).temp_f = 71.6 ∧
     (read_sensors_once 0
        { temp_c := 22, humidity := 45,
          pm1 := none, pm25 := some 10, pm10 := none }).humidity = 45 ∧
     (read_sensors_once 0
        { temp_c := 22, humidity := 45,
          pm1 := none, pm25 := some 10, pm10 := none }).pm25 = some 10 ∧
     (read_sensors_once 0
        { temp_c := 22, humidity := 45,
          pm1 := none, pm25 := some 10, pm10 := none }).aqi_category = "Good") := by
  refine ⟨⟨rfl, rfl, rfl, rfl⟩, ⟨rfl, rfl⟩, ?_, ?_, rfl, ?_⟩
  · show round1 ((22 : ℚ) * 9 / 5 + 32) = 71.6
    norm_num [round1, roundHalfEven]
  · show round1 (45 : ℚ) = 45
    norm_num [round1, roundHalfEven]
  · show aqi_category_from_pm25 (some 10) = "Good"
    norm_num [aqi_category_from_pm25]

/-- One poll iteration's environment, as `sensor_loop` experiences it:
either a successful sensor pass (carrying the reading built by
`read_sensors_once` and whether the CSV append succeeds) or a sensor read
that raised. -/
inductive PollInput where
  | ok (row : Reading) (csvOk : Bool)
  | fail (err : String)
deriving DecidableEq, Repr

/-- The externally visible events of one loop iteration, in program order:
the locked history update, then the CSV append (whose failure
`append_to_csv` catches and logs), or the logged sensor-read error. -/
inductive PollEvent where
  | recorded (row : Reading)
  | csvWritten (row : Reading)
  | csvWriteError (row : Reading)
  | sensorReadError (err : String)
deriving DecidableEq, Repr

/-- The body of one `sensor_loop` iteration: on success, `record` under the
lock and then `append_to_csv`; on failure, log and leave the store alone. -/
def sensor_loop_iter (W : ℚ) (s : Store) : PollInput → Store × List PollEvent
  | .ok row csvOk =>
    (record W s row,
      [.recorded row, if csvOk then .csvWritten row else .csvWriteError row])
  | .fail e => (s, [.sensorReadError e])

/-- `sensor_loop` over a finite schedule of iteration inputs; the real loop
never terminates, so any finite prefix of its behaviour has this form. -/
def sensor_loop_run (W : ℚ) (s : Store) : List PollInput → Store × List PollEvent
  | [] => (s, [])
  | i :: rest =>
    let step := sensor_loop_iter W s i
    let next := sensor_loop_run W step.1 rest
    (next.1, step.2 ++ next.2)

/-- The readings of the successful iterations, in order. -/
def successes : List PollInput → List Reading
  | [] => []
  | .ok row _ :: rest => row :: successes rest
  | .fail _ :: rest => successes rest

lemma sensor_loop_run_store (W : ℚ) :
    ∀ (ins : List PollInput) (s : Store),
      (sensor_loop_run W s ins).1 = recordAll W (successes ins) s := by
  intro ins
  induction ins with
  | nil => intro s; rfl
  | cons i rest ih =>
    intro s
    cases i with
    | ok row csvOk => simp [sensor_loop_run, sensor_loop_iter, successes,
        recordAll, ih]
    | fail e => simp [sensor_loop_run, sensor_loop_iter, successes, ih]

/-- Claim C8: in a successful iteration the history-store `record` event
precedes the session-log append event; a CSV write failure leaves the store
exactly as `record` left it; a failed sensor read leaves the store
untouched and only logs; and over any schedule the loop processes every
iteration, the final store depending only on the successful readings. -/
theorem poll_loop_failure_isolation (W : ℚ) (s : Store) (row : Reading)
    (e : String) (b : Bool) :
    ((sensor_loop_iter W s (.ok row b)).2
       = [.recorded row, if b then .csvWritten row else .csvWriteError row]) ∧
    ((sensor_loop_iter W s (.ok row false)).1 = record W s row ∧
     (sensor_loop_iter W s (.ok row b)).1 = record W s row) ∧
    (sensor_loop_iter W s (.fail e) = (s, [.sensorReadError e])) ∧
    (∀ ins : List PollInput,
      (sensor_loop_run W s ins).1 = recordAll W (successes ins) s) :=
  ⟨rfl, ⟨rfl, rfl⟩, rfl, fun ins => sensor_loop_run_store W ins s⟩

/-- The best-effort host telemetry returned by `get_system_info`; each
field degrades independently to an unavailable marker. -/
structure SystemInfo where
  cpu_temp_f : Option ℚ
  uptime : String
  ip : String
  wifi_rssi : Option ℤ
deriving DecidableEq, Repr

/-- The JSON shape either `api_data` branch produces. -/
structure ApiDataResponse where
  status : ℕ
  ok : Bool
  error : Option String
  data : Option Reading
  system : Option SystemInfo
deriving DecidableEq, Repr

/-- `api_data`: read `last_row` under the lock; if it is empty answer
`{ok: false, error: "No data yet"}` with HTTP 503, otherwise the reading
plus system info with HTTP 200. -/
def api_data (s : Store) (sys : SystemInfo) : ApiDataResponse :=
  match snapshot_latest s with
  | none =>
    { status := 503, ok := false, error := some "No data yet",
      data := none, system := none }
  | some row =>
    { status := 200, ok := true, error := none,
      data := some row, system := some sys }

/-- The JSON shape `api_history` produces. -/
structure ApiHistoryResponse where
  ok : Bool
  points : List Reading
deriving DecidableEq, Repr

/-- `api_history`: copy the window under the lock, always `ok: true`. -/
def api_history (s : Store) : ApiHistoryResponse :=
  { ok := true, points := snapshot_history s }

lemma recordAll_last_row (W : ℚ) :
    ∀ rows : List Reading,
      (recordAll W rows initStore).last_row = rows.getLast? := by
  intro rows
  induction rows using List.reverseRecOn with
  | nil => rfl
  | append_singleton l r _ =>
    rw [recordAll_append, record_last_row, List.getLast?_concat]

/-- Claim C7: `api_data` answers HTTP 503 with `{ok: false, error: "No
data yet"}` exactly when no sensor reading has ever succeeded; after at
least one success it answers `ok: true` with the most recently recorded
reading plus the system info. -/
theorem api_data_503_iff_no_success (W : ℚ) (ins : List PollInput)
    (sys : SystemInfo) :
    ((api_data (sensor_loop_run W initStore ins).1 sys
        = { status := 503, ok := false, error := some "No data yet",
            data := none, system := none }) ↔ successes ins = []) ∧
    ∀ (h : successes ins ≠ []),
      api_data (sensor_loop_run W initStore ins).1 sys
        = { status := 200, ok := true, error := none,
            data := some ((successes ins).getLast h), system := some sys } := by
  have hlast : snapshot_latest (sensor_loop_run W initStore ins).1
      = (successes ins).getLast? := by
    rw [show snapshot_latest (sensor_loop_run W initStore ins).1
          = (sensor_loop_run W initStore ins).1.last_row from rfl,
      sensor_loop_run_store W ins initStore, recordAll_last_row]
  constructor
  · cases hg : (successes ins).getLast? with
    | none =>
      have hnil : successes ins = [] := List.getLast?_eq_none_iff.mp hg
      simp [api_data, hlast, hg, hnil]
    | some a =>
      have hne : successes ins ≠ [] := by
        intro hc; rw [hc] at hg; exact Option.noConfusion hg
      simp [api_data, hlast, hg, hne]
  · intro h
    have hg : (successes ins).getLast? = some ((successes ins).getLast h) :=
      List.getLast?_eq_getLast _ h
    simp [api_data, hlast, hg]

/-- Witness for C7: two iterations — a failed read, then a success — end in
a 200 response carrying the successful reading. -/
theorem api_data_503_iff_no_success_witness :
    (successes [.fail "boom", .ok (tsOnly 7) true] ≠ []) ∧
    api_data (sensor_loop_run HISTORY_SECONDS initStore
        [.fail "boom", .ok (tsOnly 7) true]).1
        { cpu_temp_f := none, uptime := "N/A", ip := "N/A", wifi_rssi := none }
      = { status := 200, ok := true, error := none,
          data := some (tsOnly 7), system := some
            { cpu_temp_f := none, uptime := "N/A", ip := "N/A",
              wifi_rssi := none } } := by
  have hne : successes [.fail "boom", .ok (tsOnly 7) true] ≠ [] := by
    simp [successes]
  refine ⟨hne, ?_⟩
  have h := (api_data_503_iff_no_success HISTORY_SECONDS
      [.fail "boom", .ok (tsOnly 7) true]
      { cpu_temp_f := none, uptime := "N/A", ip := "N/A",
        wifi_rssi := none }).2 hne
  rw [h]
  simp [successes]

/-- Claim C10: `api_history` never fails: for every store state it answers
`ok: true` with the full current window in insertion order, and the empty
list before any reading has succeeded. -/
theorem api_history_never_fails :
    (∀ s : Store, (api_history s).ok = true ∧ (api_history s).points = s.history) ∧
    (api_history initStore).points = [] :=
  ⟨fun _ => ⟨rfl, rfl⟩, rfl⟩

/-- The writer's position inside the `with history_lock` block of
`sensor_loop`: before acquiring the lock, after the `history.append`,
after `last_row` is set, and after the eviction with the lock released.
In the source every access to `history` and `last_row` — the writer's
three statements and both endpoint snapshots — occurs under this one
lock. -/
inductive WriterPhase where
  | beforeLock
  | appended
  | lastRowSet
  | released
deriving DecidableEq, Repr

/-- The lock is held exactly while the writer is mid-critical-section. -/
def lockHeld : WriterPhase → Bool
  | .appended => true
  | .lastRowSet => true
  | _ => false

/-- The shared store together with the in-flight writer's position. -/
structure ConcState where
  store : Store
  phase : WriterPhase
deriving DecidableEq, Repr

/-- One micro-step of the in-flight `record` call for reading `row`:
append, set `last_row`, evict (releasing the lock); a finished writer
does nothing. -/
def writerStep (W : ℚ) (row : Reading) (c : ConcState) : ConcState :=
  match c.phase with
  | .beforeLock =>
    { store := { c.store with history := c.store.history ++ [row] },
      phase := .appended }
  | .appended =>
    { store := { c.store with last_row := some row },
      phase := .lastRowSet }
  | .lastRowSet =>
    { store := { c.store with
        history := c.store.history.filter (fun x => decide (row.ts - W ≤ x.ts)) },
      phase := .released }
  | .released => c

/-- An interleaving event: one writer micro-step, or one reader snapshot
(`api_history` or `api_data`), each snapshot only possible while the lock
is free. -/
inductive ConcAction where
  | writer
  | readHistory
  | readLatest
deriving DecidableEq, Repr

/-- What a reader snapshot observes. -/
inductive Observation where
  | hist (points : List Reading)
  | latest (row : Option Reading)
deriving DecidableEq, Repr

/-- One interleaving step: readers block (observe nothing yet) while the
writer holds the lock, and otherwise take their snapshot atomically. -/
def concStep (W : ℚ) (row : Reading) (c : ConcState) :
    ConcAction → ConcState × Option Observation
  | .writer => (writerStep W row c, none)
  | .readHistory =>
    if lockHeld c.phase then (c, none)
    else (c, some (.hist (snapshot_history c.store)))
  | .readLatest =>
    if lockHeld c.phase then (c, none)
    else (c, some (.latest (snapshot_latest c.store)))

/-- Run an arbitrary interleaving of writer micro-steps and concurrent
snapshots, collecting every observation made. -/
def concRun (W : ℚ) (row : Reading) (c : ConcState) :
    List ConcAction → ConcState × List Observation
  | [] => (c, [])
  | a :: rest =>
    let step := concStep W row c a
    let next := concRun W row step.1 rest
    (next.1, step.2.toList ++ next.2)

/-- The store contents determined by the writer's phase, starting from
pre-state `s`. -/
def phaseStore (W : ℚ) (row : Reading) (s : Store) : WriterPhase → Store
  | .beforeLock => s
  | .appended => { s with history := s.history ++ [row] }
  | .lastRowSet => { history := s.history ++ [row], last_row := some row }
  | .released => record W s row

lemma writerStep_phaseStore (W : ℚ) (row : Reading) (s : Store)
    (ph : WriterPhase) :
    writerStep W row { store := phaseStore W row s ph, phase := ph }
      = { store := phaseStore W row s (writerStep W row
            { store := phaseStore W row s ph, phase := ph }).phase,
          phase := (writerStep W row
            { store := phaseStore W row s ph, phase := ph }).phase } := by
  cases ph <;> rfl

lemma concRun_obs_aux (W : ℚ) (row : Reading) (s : Store) :
    ∀ (acts : List ConcAction) (ph : WriterPhase),
      ∀ o ∈ (concRun W row { store := phaseStore W row s ph, phase := ph }
                acts).2,
        o = .hist s.history ∨ o = .hist (record W s row).history ∨
        o = .latest s.last_row ∨ o = .latest (record W s row).last_row := by
  intro acts
  induction acts with
  | nil => intro ph o ho; simp [concRun] at ho
  | cons a rest ih =>
    intro ph o ho
    cases a with
    | writer =>
      rw [concRun] at ho
      simp only [concStep, Option.toList_none, List.nil_append] at ho
      rw [writerStep_phaseStore] at ho
      exact ih _ o ho
    | readHistory =>
      rw [concRun] at ho
      simp only [concStep] at ho
      by_cases hl : lockHeld ph
      · rw [if_pos (by simpa using hl)] at ho
        simp only [Option.toList_none, List.nil_append] at ho
        exact ih ph o ho
      · rw [if_neg (by simpa using hl)] at ho
        simp only [Option.toList_some, List.cons_append, List.mem_cons,
          List.nil_append] at ho
        rcases ho with ho | ho
        · subst ho
          cases ph with
          | beforeLock => exact Or.inl rfl
          | released => exact Or.inr (Or.inl rfl)
          | appended => exact absurd rfl hl
          | lastRowSet => exact absurd rfl hl
        · exact ih ph o ho
    | readLatest =>
      rw [concRun] at ho
      simp only [concStep] at ho
      by_cases hl : lockHeld ph
      · rw [if_pos (by simpa using hl)] at ho
        simp only [Option.toList_none, List.nil_append] at ho
        exact ih ph o ho
      · rw [if_neg (by simpa using hl)] at ho
        simp only [Option.toList_some, List.cons_append, List.mem_cons,
          List.nil_append] at ho
        rcases ho with ho | ho
        · subst ho
          cases ph with
          | beforeLock => exact Or.inr (Or.inr (Or.inl rfl))
          | released => exact Or.inr (Or.inr (Or.inr rfl))
          | appended => exact absurd rfl hl
          | lastRowSet => exact absurd rfl hl
        · exact ih ph o ho

/-- Claim C6: with one `record` call in flight and any number of
concurrent `api_history`/`api_data` snapshots, mutual exclusion via
`history_lock` guarantees every snapshot observes the complete pre-state
or the complete post-state of that `record` — never the partially-appended
or partially-evicted intermediate store. -/
theorem snapshots_observe_pre_or_post_state (W : ℚ) (row : Reading)
    (s : Store) (acts : List ConcAction) (o : Observation)
    (ho : o ∈ (concRun W row { store := s, phase := .beforeLock } acts).2) :
    o = .hist (snapshot_history s) ∨
    o = .hist (snapshot_history (record W s row)) ∨
    o = .latest (snapshot_latest s) ∨
    o = .latest (snapshot_latest (record W s row)) :=
  concRun_obs_aux W row s acts .beforeLock o ho

/-- Witness for C6: a snapshot before the writer starts and one after it
finishes, around a full in-flight `record` of the reading at t = 0. -/
theorem snapshots_observe_pre_or_post_state_witness :
    (Observation.latest (some (tsOnly 0)) ∈
      (concRun HISTORY_SECONDS (tsOnly 0)
        { store := initStore, phase := .beforeLock }
        [.readHistory, .writer, .writer, .writer, .readLatest]).2) ∧
    (Observation.latest (some (tsOnly 0))
        = .hist (snapshot_history initStore) ∨
     Observation.latest (some (tsOnly 0))
        = .hist (snapshot_history (record HISTORY_SECONDS initStore (tsOnly 0))) ∨
     Observation.latest (some (tsOnly 0))
        = .latest (snapshot_latest initStore) ∨
     Observation.latest (some (tsOnly 0))
        = .latest (snapshot_latest (record HISTORY_SECONDS initStore (tsOnly 0)))) := by
  have hmem : Observation.latest (some (tsOnly 0)) ∈
      (concRun HISTORY_SECONDS (tsOnly 0)
        { store := initStore, phase := .beforeLock }
        [.readHistory, .writer, .writer, .writer, .readLatest]).2 := by
    norm_num [concRun, concStep, writerStep, lockHeld, initStore,
      snapshot_history, snapshot_latest]
  exact ⟨hmem, snapshots_observe_pre_or_post_state HISTORY_SECONDS (tsOnly 0)
    initStore _ _ hmem⟩

end AirMonitor
